import Mathlib

/-!
Verification development for the Ry compiler front end (lexical token model,
two-token-lookahead parse state, Pratt-style expression parser, statement/block
parser, diagnostics discipline, and the string interner).

All definitions are shallow embeddings of the Rust source under
`crates/ry_ast`, `crates/ry_parser`, `crates/stellar_parser` and
`crates/stellar_interner`.  Pieces of the repository that are only referenced
from those crates (the `Precedence` enum, the `parse_list!` macro, the
operator classifications, the literal/pattern/type sub-parsers) are modelled
from the specification document and are marked as such in their doc comments.
-/

namespace Ry

/-- Half-open byte range plus a file identifier, mirroring `Span` from
`ry_workspace::span` (field `end` is named `stop` because `end` is a Lean
keyword). -/
structure Span where
  start : Nat
  stop : Nat
  fileId : Nat
deriving DecidableEq, Repr

/-- Errors the scanning process can fail with, mirroring `RawLexError` in
`ry_ast/src/token.rs`. -/
inductive RawLexError where
  | DigitDoesNotCorrespondToBase
  | EmptyCharacterLiteral
  | EmptyEscapeSequence
  | EmptyWrappedIdentifier
  | ExpectedCloseBracketInByteEscapeSequence
  | ExpectedCloseBracketInUnicodeEscapeSequence
  | ExpectedDigitInByteEscapeSequence
  | ExpectedDigitInUnicodeEscapeSequence
  | ExpectedOpenBracketInByteEscapeSequence
  | ExpectedOpenBracketInUnicodeEscapeSequence
  | ExponentHasNoDigits
  | ExponentRequiresDecimalMantissa
  | NumberContainsNoDigits
  | InvalidByteEscapeSequence
  | InvalidDigit
  | InvalidRadixPoint
  | InvalidUnicodeEscapeSequence
  | MoreThanOneCharInCharLiteral
  | NumberParseError
  | UnderscoreMustSeparateSuccessiveDigits
  | UnexpectedChar
  | UnknownEscapeSequence
  | UnterminatedCharLiteral
  | UnterminatedStringLiteral
  | UnterminatedWrappedIdentifier
deriving DecidableEq, Repr

/-- The fixed keyword set of the language, mirroring `Keyword` in
`ry_ast/src/token.rs` (`Type` is renamed `TypeKeyword` because `Type` is a
Lean keyword). -/
inductive Keyword where
  | As | Defer | Else | Enum | For | Fun | If | Pub | Return
  | Struct | TypeKeyword | Let | Where | While | Match | Import
  | Break | Continue | Dyn | Loop | Interface | Implements
deriving DecidableEq, Repr

/-- The fixed punctuator set, mirroring `Punctuator` in
`ry_ast/src/token.rs`. -/
inductive Punctuator where
  | Arrow | Ampersand | AmpersandEq | DoubleAmpersand
  | Asterisk | DoubleAsterisk | AsteriskEq | At | Bang
  | CloseBrace | CloseBracket | CloseParent | Colon | Comma
  | Dot | DoubleDot | Eq | DoubleEq | Greater | GreaterEq
  | LeftShift | Less | LessEq | Minus | MinusEq | DoubleMinus
  | Tilde | BangEq | OpenBrace | OpenBracket | OpenParent
  | Or | OrEq | DoubleOr | Percent | PercentEq | Plus | PlusEq
  | DoublePlus | QuestionMark | RightShift | Semicolon | Slash
  | SlashEq | Caret | CaretEq | HashTag
deriving DecidableEq, Repr

/-- Token kind without a location, mirroring `RawToken` in
`ry_ast/src/token.rs`. -/
inductive RawToken where
  | TrueBoolLiteral
  | FalseBoolLiteral
  | CharLiteral
  | Comment
  | GlobalDocComment
  | LocalDocComment
  | EndOfFile
  | FloatLiteral
  | Identifier
  | IntegerLiteral
  | Error (e : RawLexError)
  | Keyword (k : Keyword)
  | Punctuator (p : Punctuator)
  | StringLiteral
deriving DecidableEq, Repr

/-- Mirrors `RawToken::eof`. -/
def RawToken.eof : RawToken → Bool
  | .EndOfFile => true
  | _ => false

/-- Display text of a keyword, mirroring the `display` attributes in
`ry_ast/src/token.rs`. -/
def Keyword.display : Keyword → String
  | .As => "as" | .Defer => "defer" | .Else => "else" | .Enum => "enum"
  | .For => "for" | .Fun => "fun" | .If => "if" | .Pub => "pub"
  | .Return => "return" | .Struct => "struct" | .TypeKeyword => "type"
  | .Let => "let" | .Where => "where" | .While => "while" | .Match => "match"
  | .Import => "import" | .Break => "break" | .Continue => "continue"
  | .Dyn => "dyn" | .Loop => "loop" | .Interface => "interface"
  | .Implements => "implements"

/-- Display text of a punctuator, mirroring the `display` attributes in
`ry_ast/src/token.rs`. -/
def Punctuator.display : Punctuator → String
  | .Arrow => "=>" | .Ampersand => "&" | .AmpersandEq => "&="
  | .DoubleAmpersand => "&&" | .Asterisk => "*" | .DoubleAsterisk => "**"
  | .AsteriskEq => "*=" | .At => "@" | .Bang => "!"
  | .CloseBrace => "\x7d" | .CloseBracket => "]" | .CloseParent => ")"
  | .Colon => ":" | .Comma => "," | .Dot => "." | .DoubleDot => ".."
  | .Eq => "=" | .DoubleEq => "==" | .Greater => ">" | .GreaterEq => ">="
  | .LeftShift => "<<" | .Less => "<" | .LessEq => "<=" | .Minus => "-"
  | .MinusEq => "-=" | .DoubleMinus => "--" | .Tilde => "~"
  | .BangEq => "!=" | .OpenBrace => "\x7b" | .OpenBracket => "["
  | .OpenParent => "(" | .Or => "|" | .OrEq => "|=" | .DoubleOr => "||"
  | .Percent => "%" | .PercentEq => "%=" | .Plus => "+" | .PlusEq => "+="
  | .DoublePlus => "++" | .QuestionMark => "?" | .RightShift => ">>"
  | .Semicolon => ";" | .Slash => "/" | .SlashEq => "/=" | .Caret => "^"
  | .CaretEq => "^=" | .HashTag => "#"

/-- Display text of a lexical error, mirroring the `display` attributes in
`ry_ast/src/token.rs`. -/
def RawLexError.display : RawLexError → String
  | .DigitDoesNotCorrespondToBase => "DigitDoesNotCorrespondToBase"
  | .EmptyCharacterLiteral => "empty character literal"
  | .EmptyEscapeSequence => "empty escape sequence"
  | .EmptyWrappedIdentifier => "empty wrapped identifier literal"
  | .ExpectedCloseBracketInByteEscapeSequence => "expected `\x7d` in byte escape sequence"
  | .ExpectedCloseBracketInUnicodeEscapeSequence => "expected `\x7d` in Unicode escape sequence"
  | .ExpectedDigitInByteEscapeSequence => "expected digit in byte escape sequence"
  | .ExpectedDigitInUnicodeEscapeSequence => "expected digit in Unicode escape sequence"
  | .ExpectedOpenBracketInByteEscapeSequence => "expected `\x7b` in byte escape sequence"
  | .ExpectedOpenBracketInUnicodeEscapeSequence => "expected `\x7b` in Unicode escape sequence"
  | .ExponentHasNoDigits => "exponent has no digits"
  | .ExponentRequiresDecimalMantissa => "exponent requires decimal mantissa"
  | .NumberContainsNoDigits => "number contains no digits"
  | .InvalidByteEscapeSequence => "invalid byte escape sequence"
  | .InvalidDigit => "invalid digit"
  | .InvalidRadixPoint => "invalid radix point"
  | .InvalidUnicodeEscapeSequence => "invalid Unicode escape sequence"
  | .MoreThanOneCharInCharLiteral => "more than one character in character literal"
  | .NumberParseError => "number cannot be parsed"
  | .UnderscoreMustSeparateSuccessiveDigits => "underscore must separate successive digits"
  | .UnexpectedChar => "unexpected character"
  | .UnknownEscapeSequence => "unknown escape sequence"
  | .UnterminatedCharLiteral => "untermined character literal"
  | .UnterminatedStringLiteral => "unterminated string literal"
  | .UnterminatedWrappedIdentifier => "unterminated wrapped identifier"

/-- Display text of a raw token kind, mirroring the `display` attributes in
`ry_ast/src/token.rs`. -/
def RawToken.display : RawToken → String
  | .TrueBoolLiteral => "`true`"
  | .FalseBoolLiteral => "`false`"
  | .CharLiteral => "character literal"
  | .Comment => "comment"
  | .GlobalDocComment => "global doc comment"
  | .LocalDocComment => "local doc comment"
  | .EndOfFile => "end of file"
  | .FloatLiteral => "float literal"
  | .Identifier => "identifier"
  | .IntegerLiteral => "integer literal"
  | .Error e => e.display
  | .Keyword k => k.display
  | .Punctuator p => p.display
  | .StringLiteral => "string literal"

/-- A token with a location, mirroring `Token` in `ry_ast/src/token.rs`.
The `symbol` field models the lexer's `scanned_identifier` register for
identifier tokens (the interned symbol the lexer associates with the token);
it is `0` for non-identifier tokens. -/
structure Token where
  raw : RawToken
  span : Span
  symbol : Nat
deriving DecidableEq, Repr

/-- Modelled from the spec: the `Precedence` enum of `ry_ast::precedence` is
not under `src/`; the spec fixes its total order as Lowest < As < LogicalOr <
LogicalAnd < BitOr < BitXor < Assignment < Comparison < Shift <
GenericArgument < Sum < Product < Modulo < Call < FieldAccess < Unary <
StructLiteral.  Constructor names follow the variant names used by the
precedence table in `ry_ast/src/token.rs`. -/
inductive Precedence where
  | Lowest
  | As
  | DoubleOr
  | DoubleAmpersand
  | Or
  | Xor
  | Assign
  | Comparison
  | Shift
  | GenericArgument
  | Sum
  | Product
  | Mod
  | Call
  | Field
  | Unary
  | Struct
deriving DecidableEq, Repr

/-- Numeric rank of a precedence level in the total order of the spec. -/
def Precedence.toNat : Precedence → Nat
  | .Lowest => 0
  | .As => 1
  | .DoubleOr => 2
  | .DoubleAmpersand => 3
  | .Or => 4
  | .Xor => 5
  | .Assign => 6
  | .Comparison => 7
  | .Shift => 8
  | .GenericArgument => 9
  | .Sum => 10
  | .Product => 11
  | .Mod => 12
  | .Call => 13
  | .Field => 14
  | .Unary => 15
  | .Struct => 16

/-- The strict order on precedences (`self.precedence < next.to_precedence()`
in `ExpressionParser::parse_using`). -/
def Precedence.lt (a b : Precedence) : Bool :=
  Nat.blt a.toNat b.toNat

/-- The fixed punctuator-to-precedence table, transliterated from the
`map_precedences!` invocation in `ry_ast/src/token.rs`; punctuators with no
entry map to `Lowest`. -/
def Punctuator.toPrecedence : Punctuator → Precedence
  | .DoubleOr => .DoubleOr
  | .DoubleAmpersand => .DoubleAmpersand
  | .Or => .Or
  | .Caret => .Xor
  | .Eq | .PlusEq | .MinusEq | .AsteriskEq | .SlashEq | .OrEq | .CaretEq
  | .PercentEq => .Assign
  | .DoubleEq | .BangEq | .Less | .LessEq | .Greater | .GreaterEq => .Comparison
  | .LeftShift | .RightShift => .Shift
  | .OpenBracket => .GenericArgument
  | .Plus | .Minus => .Sum
  | .Asterisk | .Slash => .Product
  | .Percent => .Mod
  | .OpenParent => .Call
  | .Dot => .Field
  | .Tilde | .DoublePlus | .DoubleMinus | .Bang | .QuestionMark => .Unary
  | .OpenBrace => .Struct
  | _ => .Lowest

/-- Token-kind-to-precedence lookup, transliterated from
`impl From<RawToken> for Precedence` in `ry_ast/src/token.rs`. -/
def RawToken.toPrecedence : RawToken → Precedence
  | .Punctuator p => p.toPrecedence
  | .Keyword .As => .As
  | _ => .Lowest

/-- Modelled from the spec: `RawToken::binary_operator` lives in the
`ry_ast` crate root, which is not under `src/`.  Per the spec the binary
operators are the arithmetic/bitwise/comparison/assignment operators of the
precedence table (an operator with no precedence entry cannot classify as
binary). -/
def binaryOperatorPunctuators : List Punctuator :=
  [.DoubleOr, .DoubleAmpersand, .Or, .Caret,
   .Eq, .PlusEq, .MinusEq, .AsteriskEq, .SlashEq, .OrEq, .CaretEq, .PercentEq,
   .DoubleEq, .BangEq, .Less, .LessEq, .Greater, .GreaterEq,
   .LeftShift, .RightShift,
   .Plus, .Minus, .Asterisk, .Slash, .Percent]

/-- Modelled from the spec: binary-operator classification of a raw token
(`RawToken::binary_operator`, not under `src/`). -/
def RawToken.binaryOperator : RawToken → Bool
  | .Punctuator p => binaryOperatorPunctuators.contains p
  | _ => false

/-- Modelled from the spec: prefix-operator classification
(`RawToken::prefix_operator`, not under `src/`); prefix operators sit at
`Unary` precedence. -/
def RawToken.prefixOperator : RawToken → Bool
  | .Punctuator .Bang | .Punctuator .Tilde
  | .Punctuator .DoublePlus | .Punctuator .DoubleMinus => true
  | _ => false

/-- Modelled from the spec: postfix-operator classification
(`RawToken::postfix_operator`, not under `src/`). -/
def RawToken.postfixOperator : RawToken → Bool
  | .Punctuator .QuestionMark | .Punctuator .DoublePlus
  | .Punctuator .DoubleMinus => true
  | _ => false

/-- Parser diagnostics, mirroring `ry_parser/src/diagnostics.rs`: each
constructor corresponds to one diagnostic family with its payload. -/
inductive Diagnostic where
  | lexError (location : Span) (raw : RawLexError)
  | unexpectedToken (offset : Option Nat) (got : Token) (expected : List String) (node : String)
  | integerOverflow (location : Span)
  | floatOverflow (location : Span)
  | unnecessaryVisibilityQualifier (location : Span)
deriving DecidableEq, Repr

/-- The stable diagnostic code of a diagnostic, mirroring the `code` blocks in
`ry_parser/src/diagnostics.rs`. -/
def Diagnostic.code : Diagnostic → String
  | .lexError .. => "E000"
  | .unexpectedToken .. => "E001"
  | .integerOverflow .. => "E002"
  | .floatOverflow .. => "E003"
  | .unnecessaryVisibilityQualifier .. => "E004"

/-- The parse state, mirroring `ParseState` in `ry_parser/src/lib.rs`:
the lexer is embedded as the source text plus the list of tokens it has not
yet produced. -/
structure ParseState where
  source : List Char
  tokens : List Token
  fileId : Nat
  currentToken : Token
  nextToken : Token
  diagnostics : List Diagnostic
deriving DecidableEq, Repr

/-- The lexer's `next_no_comments`: produce the next token, transparently
skipping plain comments; past the end of input it keeps returning an
end-of-file token. -/
def nextNoComments (fileId : Nat) : List Token → Token × List Token
  | [] => ({ raw := .EndOfFile, span := ⟨0, 0, fileId⟩, symbol := 0 }, [])
  | t :: ts => if t.raw = .Comment then nextNoComments fileId ts else (t, ts)

/-- Mirrors `ParseState::check_next_token`: if the next token carries a
lexical error, append the corresponding `E000` diagnostic. -/
def ParseState.checkNextToken (s : ParseState) : ParseState :=
  match s.nextToken.raw with
  | .Error e => { s with diagnostics := s.diagnostics ++ [.lexError s.nextToken.span e] }
  | _ => s

/-- Mirrors `ParseState::new`: prime both lookahead slots with the first
non-comment token (the same token in both slots) and validate it. -/
def ParseState.new (fileId : Nat) (source : List Char) (tokens : List Token)
    (diagnostics : List Diagnostic) : ParseState :=
  let (current, rest) := nextNoComments fileId tokens
  ParseState.checkNextToken
    { source, tokens := rest, fileId, currentToken := current,
      nextToken := current, diagnostics }

/-- Mirrors `ParseState::advance`: shift `next` into `current`, pull a fresh
non-comment token into `next`, and validate it. -/
def ParseState.advance (s : ParseState) : ParseState :=
  let (next, rest) := nextNoComments s.fileId s.tokens
  ParseState.checkNextToken
    { s with currentToken := s.nextToken, nextToken := next, tokens := rest }

/-- Append one diagnostic to the state's diagnostic sequence. -/
def ParseState.addDiag (s : ParseState) (d : Diagnostic) : ParseState :=
  { s with diagnostics := s.diagnostics ++ [d] }

/-- Mirrors `ParseState::expect`: succeed without advancing when `next` has
the expected kind, otherwise record one unexpected-token diagnostic and fail
without advancing. -/
def ParseState.expect (s : ParseState) (expected : RawToken) (node : String) :
    Option Unit × ParseState :=
  if s.nextToken.raw = expected then
    (some (), s)
  else
    (none, s.addDiag (.unexpectedToken none s.nextToken [expected.display] node))

/-- Mirrors `ParseState::consume`: `expect` followed by `advance` on
success. -/
def ParseState.consume (s : ParseState) (expected : RawToken) (node : String) :
    Option Unit × ParseState :=
  match s.expect expected node with
  | (some _, s') => (some (), s'.advance)
  | (none, s') => (none, s')

/-- An identifier with its location, mirroring `IdentifierAst`. -/
structure IdentifierAst where
  span : Span
  symbol : Nat
deriving DecidableEq, Repr

/-- Mirrors `ParseState::consume_identifier`: produce the interned symbol plus
span when `next` is an identifier, else record one unexpected-token
diagnostic and fail without advancing. -/
def ParseState.consumeIdentifier (s : ParseState) (node : String) :
    Option IdentifierAst × ParseState :=
  if s.nextToken.raw = .Identifier then
    (some { span := s.nextToken.span, symbol := s.nextToken.symbol }, s.advance)
  else
    (none, s.addDiag (.unexpectedToken none s.nextToken ["identifier"] node))

/-- Mirrors `SpanIndex::index`: the slice of the source text addressed by a
span. -/
def sourceIndex (source : List Char) (span : Span) : List Char :=
  (source.drop span.start).take (span.stop - span.start)

/-- The loop inside `ParseState::consume_module_docstring`: while `next` is a
module-level doc comment, advance and append the text of the consumed token.
The `Nat` argument is recursion fuel. -/
def ParseState.moduleDocstringLoop : Nat → ParseState → List Char × ParseState
  | 0, s => ([], s)
  | n + 1, s =>
    if s.nextToken.raw = .GlobalDocComment then
      let s₁ := s.advance
      let text := sourceIndex s₁.source s₁.currentToken.span
      let (rest, s₂) := ParseState.moduleDocstringLoop n s₁
      (text ++ rest, s₂)
    else ([], s)

/-- Mirrors `ParseState::consume_module_docstring`: `none` when `next` is not
a module-level doc comment, otherwise the concatenated text of the run. -/
def ParseState.consumeModuleDocstring (fuel : Nat) (s : ParseState) :
    Option (List Char) × ParseState :=
  if s.nextToken.raw = .GlobalDocComment then
    let (text, s') := ParseState.moduleDocstringLoop fuel s
    (some text, s')
  else (none, s)

/-- The loop inside `ParseState::consume_local_docstring`, symmetric to the
module-level loop but keyed on item-level doc comments. -/
def ParseState.localDocstringLoop : Nat → ParseState → List Char × ParseState
  | 0, s => ([], s)
  | n + 1, s =>
    if s.nextToken.raw = .LocalDocComment then
      let s₁ := s.advance
      let text := sourceIndex s₁.source s₁.currentToken.span
      let (rest, s₂) := ParseState.localDocstringLoop n s₁
      (text ++ rest, s₂)
    else ([], s)

/-- Mirrors `ParseState::consume_local_docstring`. -/
def ParseState.consumeLocalDocstring (fuel : Nat) (s : ParseState) :
    Option (List Char) × ParseState :=
  if s.nextToken.raw = .LocalDocComment then
    let (text, s') := ParseState.localDocstringLoop fuel s
    (some text, s')
  else (none, s)

/-- Modelled from the spec: patterns are parsed by `PatternParser`
(`ry_parser/src/pattern.rs`, not under `src/`); the claims exercise only
identifier and literal patterns, which is all this model provides. -/
inductive Pattern where
  | Identifier (id : IdentifierAst)
  | Literal (token : Token)
deriving DecidableEq, Repr

/-- Modelled from the spec: types are parsed by `TypeParser`
(`ry_parser/src/type.rs`, not under `src/`); the model provides named types
with optional generic arguments, which is all the claims need. -/
inductive TypeExpr where
  | Named (name : IdentifierAst) (arguments : List TypeExpr)
deriving Repr

/-- A function-expression parameter (`name: type`), modelled from the spec
(`FunctionParameterParser` is not under `src/`). -/
structure FunctionParameter where
  name : IdentifierAst
  ty : TypeExpr
deriving Repr

/-- Operator token recorded in an AST node (`BinaryOperator`,
`PrefixOperator`, `PostfixOperator` wrap the operator's span and raw kind;
the `Raw*Operator` re-tagging of `ry_ast` is embedded as the raw token
itself). -/
structure OperatorAst where
  span : Span
  raw : RawToken
deriving DecidableEq, Repr

mutual

/-- The untyped expression tree, mirroring the `UntypedExpression` variants
constructed in `ry_parser/src/expression.rs`. -/
inductive UntypedExpression where
  | Literal (token : Token)
  | Identifier (id : IdentifierAst)
  | Parenthesized (span : Span) (inner : UntypedExpression)
  | If (span : Span) (ifBlocks : List (UntypedExpression × List Statement))
      (elseBlock : Option (List Statement))
  | While (span : Span) (condition : UntypedExpression) (body : List Statement)
  | Match (span : Span) (expression : UntypedExpression)
      (block : List MatchExpressionItem)
  | Property (span : Span) (left : UntypedExpression) (right : IdentifierAst)
  | Prefix (span : Span) (inner : UntypedExpression) (operator : OperatorAst)
  | Postfix (span : Span) (inner : UntypedExpression) (operator : OperatorAst)
  | As (span : Span) (left : UntypedExpression) (right : TypeExpr)
  | Call (span : Span) (left : UntypedExpression)
      (arguments : List UntypedExpression)
  | GenericArguments (span : Span) (left : UntypedExpression)
      (arguments : List TypeExpr)
  | Binary (span : Span) (left : UntypedExpression) (right : UntypedExpression)
      (operator : OperatorAst)
  | Struct (span : Span) (left : UntypedExpression)
      (fields : List StructExpressionItem)
  | List (span : Span) (elements : List UntypedExpression)
  | Tuple (span : Span) (elements : List UntypedExpression)
  | StatementsBlock (span : Span) (block : List Statement)
  | Function (span : Span) (parameters : List FunctionParameter)
      (returnType : Option TypeExpr) (block : List Statement)

/-- Statements, mirroring the `Statement` variants constructed in
`stellar_parser/src/statement.rs`. -/
inductive Statement where
  | Expression (expression : UntypedExpression) (hasSemicolon : Bool)
  | Defer (call : UntypedExpression)
  | Return (expression : UntypedExpression)
  | Let (pattern : Pattern) (value : UntypedExpression) (ty : Option TypeExpr)
  | Continue (location : Span)
  | Break (location : Span)

/-- One `pattern => expression` arm of a match expression. -/
inductive MatchExpressionItem where
  | mk (left : Pattern) (right : UntypedExpression)

/-- One `name` or `name: value` unit of a struct-literal expression. -/
inductive StructExpressionItem where
  | mk (name : IdentifierAst) (value : Option UntypedExpression)

end

/-- Mirrors `UntypedExpression::span`. -/
def UntypedExpression.span : UntypedExpression → Span
  | .Literal token => token.span
  | .Identifier id => id.span
  | .Parenthesized span _ => span
  | .If span _ _ => span
  | .While span _ _ => span
  | .Match span _ _ => span
  | .Property span _ _ => span
  | .Prefix span _ _ => span
  | .Postfix span _ _ => span
  | .As span _ _ => span
  | .Call span _ _ => span
  | .GenericArguments span _ _ => span
  | .Binary span _ _ _ => span
  | .Struct span _ _ => span
  | .List span _ => span
  | .Tuple span _ => span
  | .StatementsBlock span _ => span
  | .Function span _ _ _ => span

/-- Modelled from the spec: `UntypedExpression::with_block` (in `stellar_ast`,
not under `src/`) is true exactly for the expressions that syntactically end
in a block: `if`, `while`, `match`, a bare statements block, and an anonymous
function (whose body is a block). -/
def UntypedExpression.with_block : UntypedExpression → Bool
  | .If .. | .While .. | .Match .. | .StatementsBlock .. | .Function .. => true
  | _ => false

/-- Result payload of one parser invocation (each constructor corresponds to
the output type of one parser in the source). -/
inductive PR where
  | expr (e : UntypedExpression)
  | stmts (block : List Statement)
  | stmt (statement : Statement) (lastExpressionInBlock : Bool)
  | matchItem (item : MatchExpressionItem)
  | structItem (item : StructExpressionItem)
  | pat (pattern : Pattern)
  | ty (t : TypeExpr)
  | param (p : FunctionParameter)
  | many (results : List PR)

/-- Extract an expression list from generic list-combinator results; `none`
if some element is not an expression (which no parser in this development
produces). -/
def asExprList : List PR → Option (List UntypedExpression)
  | [] => some []
  | .expr e :: rest => (asExprList rest).map (e :: ·)
  | _ => none

/-- Extract a type list from generic list-combinator results. -/
def asTypeList : List PR → Option (List TypeExpr)
  | [] => some []
  | .ty t :: rest => (asTypeList rest).map (t :: ·)
  | _ => none

/-- Extract a match-item list from generic list-combinator results. -/
def asMatchItemList : List PR → Option (List MatchExpressionItem)
  | [] => some []
  | .matchItem m :: rest => (asMatchItemList rest).map (m :: ·)
  | _ => none

/-- Extract a struct-item list from generic list-combinator results. -/
def asStructItemList : List PR → Option (List StructExpressionItem)
  | [] => some []
  | .structItem f :: rest => (asStructItemList rest).map (f :: ·)
  | _ => none

/-- Extract a parameter list from generic list-combinator results. -/
def asParamList : List PR → Option (List FunctionParameter)
  | [] => some []
  | .param p :: rest => (asParamList rest).map (p :: ·)
  | _ => none

/-- The parsers of the repository, defunctionalized: each constructor stands
for one parser value of `ry_parser/src/expression.rs` or
`stellar_parser/src/statement.rs` (with its fields), plus the spec-modelled
helper parsers.  `expressionLoop` is the precedence-climbing `while` loop
inside `ExpressionParser::parse_using`, `ifChain` the `else`/`else if` loop
inside `IfExpressionParser::parse_using`, and `statementsBlockLoop` the
statement loop inside `StatementsBlockParser::parse`. -/
inductive Cmd where
  | expression (precedence : Precedence) (ignoreStruct : Bool)
  | expressionLoop (precedence : Precedence) (ignoreStruct : Bool)
      (start : Nat) (left : UntypedExpression)
  | primary (ignoreStruct : Bool)
  | whileExpression
  | matchExpression
  | matchExpressionBlock
  | matchExpressionUnit
  | ifExpression
  | ifChain (start : Nat) (ifBlocks : List (UntypedExpression × List Statement))
  | parenthesized
  | callExpression (start : Nat) (left : UntypedExpression)
  | binaryExpression (start : Nat) (left : UntypedExpression) (ignoreStruct : Bool)
  | propertyAccess (start : Nat) (left : UntypedExpression)
  | genericArgumentsExpression (start : Nat) (left : UntypedExpression)
  | cast (start : Nat) (left : UntypedExpression)
  | structExpression (start : Nat) (left : UntypedExpression)
  | structExpressionUnit
  | prefixExpression (ignoreStruct : Bool)
  | postfixExpression (start : Nat) (left : UntypedExpression)
  | listExpression
  | tuple
  | statementsBlockExpression
  | functionExpression
  | statementsBlock
  | statementsBlockLoop (block : List Statement)
  | statement
  | expressionStatement
  | deferStatement
  | returnStatement
  | letStatement
  | continueStatement
  | breakStatement
  | literalExpression
  | patternE
  | typeE
  | genericArguments
  | functionParameter
  | listP (node : String) (closing : RawToken) (elem : Cmd)

/-- Expected-token strings of the unexpected-token diagnostic in
`PrimaryExpressionParser::parse_using`, in source order. -/
def primaryExpected : List String :=
  ["integer literal", "float literal", "string literal", "char literal",
   "boolean literal", "#", "|", "(", "\x7b", "[", "identifier", "if",
   "while", "match"]

/-- The parsing engine: one step-indexed interpreter of the mutually
recursive parsers.  `run fuel c s` executes parser `c` in state `s`; the
fuel argument only forces termination (every claim is evaluated with ample
fuel).  Each `Cmd` case is a transliteration of the corresponding
`Parse::parse` implementation in `ry_parser/src/expression.rs` /
`stellar_parser/src/statement.rs`; the `listP`, `literalExpression`,
`patternE`, `typeE`, `genericArguments` and `functionParameter` cases are
modelled from the spec (their sources are not under `src/`), with `listP`
following the list-combinator contract word by word. -/
def run : Nat → Cmd → ParseState → Option PR × ParseState
  | 0, _, s => (none, s)
  | n + 1, c, s =>
    match c with
    | .expression precedence ignoreStruct =>
      let start := s.nextToken.span.start
      match run n (.primary ignoreStruct) s with
      | (some (.expr left), s₁) =>
        run n (.expressionLoop precedence ignoreStruct start left) s₁
      | (_, s₁) => (none, s₁)
    | .expressionLoop precedence ignoreStruct start left =>
      if Precedence.lt precedence s.nextToken.raw.toPrecedence then
        match s.nextToken.raw with
        | .Punctuator .OpenParent =>
          match run n (.callExpression start left) s with
          | (some (.expr e), s₁) =>
            run n (.expressionLoop precedence ignoreStruct start e) s₁
          | (_, s₁) => (none, s₁)
        | .Punctuator .Dot =>
          match run n (.propertyAccess start left) s with
          | (some (.expr e), s₁) =>
            run n (.expressionLoop precedence ignoreStruct start e) s₁
          | (_, s₁) => (none, s₁)
        | .Punctuator .OpenBracket =>
          match run n (.genericArgumentsExpression start left) s with
          | (some (.expr e), s₁) =>
            run n (.expressionLoop precedence ignoreStruct start e) s₁
          | (_, s₁) => (none, s₁)
        | .Keyword .As =>
          match run n (.cast start left) s with
          | (some (.expr e), s₁) =>
            run n (.expressionLoop precedence ignoreStruct start e) s₁
          | (_, s₁) => (none, s₁)
        | .Punctuator .OpenBrace =>
          if ignoreStruct then (some (.expr left), s)
          else
            match run n (.structExpression start left) s with
            | (some (.expr e), s₁) =>
              run n (.expressionLoop precedence ignoreStruct start e) s₁
            | (_, s₁) => (none, s₁)
        | _ =>
          if s.nextToken.raw.binaryOperator then
            match run n (.binaryExpression start left ignoreStruct) s with
            | (some (.expr e), s₁) =>
              run n (.expressionLoop precedence ignoreStruct start e) s₁
            | (_, s₁) => (none, s₁)
          else if s.nextToken.raw.postfixOperator then
            match run n (.postfixExpression start left) s with
            | (some (.expr e), s₁) =>
              run n (.expressionLoop precedence ignoreStruct start e) s₁
            | (_, s₁) => (none, s₁)
          else (some (.expr left), s)
      else (some (.expr left), s)
    | .primary ignoreStruct =>
      match s.nextToken.raw with
      | .IntegerLiteral | .FloatLiteral | .StringLiteral | .CharLiteral
      | .TrueBoolLiteral | .FalseBoolLiteral => run n .literalExpression s
      | .Identifier =>
        let symbol := s.nextToken.symbol
        let s₁ := s.advance
        (some (.expr (.Identifier { span := s₁.currentToken.span, symbol })), s₁)
      | .Punctuator .OpenParent => run n .parenthesized s
      | .Punctuator .OpenBracket => run n .listExpression s
      | .Punctuator .OpenBrace => run n .statementsBlockExpression s
      | .Punctuator .Or => run n .functionExpression s
      | .Punctuator .HashTag => run n .tuple s
      | .Keyword .If => run n .ifExpression s
      | .Keyword .Match => run n .matchExpression s
      | .Keyword .While => run n .whileExpression s
      | _ =>
        if s.nextToken.raw.prefixOperator then
          run n (.prefixExpression ignoreStruct) s
        else
          (none, s.addDiag
            (.unexpectedToken none s.nextToken primaryExpected "expression"))
    | .whileExpression =>
      let start := s.nextToken.span.start
      let s₀ := s.advance
      match run n (.expression .Lowest true) s₀ with
      | (some (.expr condition), s₁) =>
        match run n .statementsBlock s₁ with
        | (some (.stmts body), s₂) =>
          (some (.expr (.While ⟨start, s₂.currentToken.span.stop, s₂.fileId⟩
            condition body)), s₂)
        | (_, s₂) => (none, s₂)
      | (_, s₁) => (none, s₁)
    | .matchExpression =>
      let start := s.nextToken.span.start
      let s₀ := s.advance
      match run n (.expression .Lowest true) s₀ with
      | (some (.expr expression), s₁) =>
        match run n .matchExpressionBlock s₁ with
        | (some (.many units), s₂) =>
          match asMatchItemList units with
          | some block =>
            (some (.expr (.Match ⟨start, s₂.currentToken.span.stop, s₂.fileId⟩
              expression block)), s₂)
          | none => (none, s₂)
        | (_, s₂) => (none, s₂)
      | (_, s₁) => (none, s₁)
    | .matchExpressionBlock =>
      match s.consume (.Punctuator .OpenBrace) "match expression block" with
      | (some _, s₁) =>
        match run n (.listP "match expression block" (.Punctuator .CloseBrace)
            .matchExpressionUnit) s₁ with
        | (some (.many units), s₂) => (some (.many units), s₂.advance)
        | (_, s₂) => (none, s₂)
      | (none, s₁) => (none, s₁)
    | .matchExpressionUnit =>
      match run n .patternE s with
      | (some (.pat left), s₁) =>
        match s₁.consume (.Punctuator .Arrow) "match expression unit" with
        | (some _, s₂) =>
          match run n (.expression .Lowest false) s₂ with
          | (some (.expr right), s₃) => (some (.matchItem ⟨left, right⟩), s₃)
          | (_, s₃) => (none, s₃)
        | (none, s₂) => (none, s₂)
      | (_, s₁) => (none, s₁)
    | .ifExpression =>
      let start := s.nextToken.span.start
      let s₀ := s.advance
      match run n (.expression .Lowest true) s₀ with
      | (some (.expr condition), s₁) =>
        match run n .statementsBlock s₁ with
        | (some (.stmts block), s₂) =>
          run n (.ifChain start [(condition, block)]) s₂
        | (_, s₂) => (none, s₂)
      | (_, s₁) => (none, s₁)
    | .ifChain start ifBlocks =>
      if s.nextToken.raw = .Keyword .Else then
        let s₀ := s.advance
        if s₀.nextToken.raw = .Keyword .If then
          let s₁ := s₀.advance
          match run n (.expression .Lowest true) s₁ with
          | (some (.expr condition), s₂) =>
            match run n .statementsBlock s₂ with
            | (some (.stmts block), s₃) =>
              run n (.ifChain start (ifBlocks ++ [(condition, block)])) s₃
            | (_, s₃) => (none, s₃)
          | (_, s₂) => (none, s₂)
        else
          match run n .statementsBlock s₀ with
          | (some (.stmts elseBlock), s₁) =>
            (some (.expr (.If ⟨start, s₁.currentToken.span.stop, s₁.fileId⟩
              ifBlocks (some elseBlock))), s₁)
          | (_, s₁) => (none, s₁)
      else
        (some (.expr (.If ⟨start, s.currentToken.span.stop, s.fileId⟩
          ifBlocks none)), s)
    | .parenthesized =>
      let start := s.nextToken.span.start
      let s₀ := s.advance
      match run n (.expression .Lowest false) s₀ with
      | (some (.expr inner), s₁) =>
        match s₁.consume (.Punctuator .CloseParent) "parenthesized expression" with
        | (some _, s₂) =>
          (some (.expr (.Parenthesized ⟨start, inner.span.stop, s₂.fileId⟩
            inner)), s₂)
        | (none, s₂) => (none, s₂)
      | (_, s₁) => (none, s₁)
    | .callExpression start left =>
      let s₀ := s.advance
      match run n (.listP "call arguments list" (.Punctuator .CloseParent)
          (.expression .Lowest false)) s₀ with
      | (some (.many args), s₁) =>
        let s₂ := s₁.advance
        match asExprList args with
        | some arguments =>
          (some (.expr (.Call ⟨start, s₂.currentToken.span.stop, s₂.fileId⟩
            left arguments)), s₂)
        | none => (none, s₂)
      | (_, s₁) => (none, s₁)
    | .binaryExpression start left ignoreStruct =>
      let operatorToken := s.nextToken
      let operator : OperatorAst := { span := operatorToken.span, raw := operatorToken.raw }
      let precedence := s.nextToken.raw.toPrecedence
      let s₀ := s.advance
      match run n (.expression precedence ignoreStruct) s₀ with
      | (some (.expr right), s₁) =>
        (some (.expr (.Binary ⟨start, s₁.currentToken.span.stop, s₁.fileId⟩
          left right operator)), s₁)
      | (_, s₁) => (none, s₁)
    | .propertyAccess start left =>
      let s₀ := s.advance
      match s₀.consumeIdentifier "property" with
      | (some right, s₁) =>
        (some (.expr (.Property ⟨start, s₁.currentToken.span.stop, s₁.fileId⟩
          left right)), s₁)
      | (none, s₁) => (none, s₁)
    | .genericArgumentsExpression start left =>
      match run n .genericArguments s with
      | (some (.many args), s₁) =>
        match asTypeList args with
        | some arguments =>
          (some (.expr (.GenericArguments
            ⟨start, s₁.currentToken.span.stop, s₁.fileId⟩ left arguments)), s₁)
        | none => (none, s₁)
      | (_, s₁) => (none, s₁)
    | .cast start left =>
      let s₀ := s.advance
      match run n .typeE s₀ with
      | (some (.ty right), s₁) =>
        (some (.expr (.As ⟨start, s₁.currentToken.span.stop, s₁.fileId⟩
          left right)), s₁)
      | (_, s₁) => (none, s₁)
    | .structExpression start left =>
      let s₀ := s.advance
      match run n (.listP "struct expression" (.Punctuator .CloseBrace)
          .structExpressionUnit) s₀ with
      | (some (.many fs), s₁) =>
        let s₂ := s₁.advance
        match asStructItemList fs with
        | some fields =>
          (some (.expr (.Struct ⟨start, s₂.currentToken.span.stop, s₂.fileId⟩
            left fields)), s₂)
        | none => (none, s₂)
      | (_, s₁) => (none, s₁)
    | .structExpressionUnit =>
      match s.consumeIdentifier "struct field" with
      | (some name, s₁) =>
        if s₁.nextToken.raw = .Punctuator .Colon then
          let s₂ := s₁.advance
          match run n (.expression .Lowest false) s₂ with
          | (some (.expr value), s₃) => (some (.structItem ⟨name, some value⟩), s₃)
          | (_, s₃) => (none, s₃)
        else (some (.structItem ⟨name, none⟩), s₁)
      | (none, s₁) => (none, s₁)
    | .prefixExpression ignoreStruct =>
      let operatorToken := s.nextToken
      let operator : OperatorAst := { span := operatorToken.span, raw := operatorToken.raw }
      let s₀ := s.advance
      match run n (.expression .Unary ignoreStruct) s₀ with
      | (some (.expr inner), s₁) =>
        (some (.expr (.Prefix ⟨operatorToken.span.start, inner.span.stop, s₁.fileId⟩
          inner operator)), s₁)
      | (_, s₁) => (none, s₁)
    | .postfixExpression start left =>
      let s₀ := s.advance
      let operator : OperatorAst :=
        { span := s₀.currentToken.span, raw := s₀.currentToken.raw }
      (some (.expr (.Postfix ⟨start, s₀.currentToken.span.stop, s₀.fileId⟩
        left operator)), s₀)
    | .listExpression =>
      let s₀ := s.advance
      let start := s₀.nextToken.span.start
      match run n (.listP "list expression" (.Punctuator .CloseBracket)
          (.expression .Lowest false)) s₀ with
      | (some (.many es), s₁) =>
        let s₂ := s₁.advance
        match asExprList es with
        | some elements =>
          (some (.expr (.List ⟨start, s₂.currentToken.span.stop, s₂.fileId⟩
            elements)), s₂)
        | none => (none, s₂)
      | (_, s₁) => (none, s₁)
    | .tuple =>
      let start := s.nextToken.span.start
      let s₀ := s.advance
      match s₀.consume (.Punctuator .OpenParent) "tuple expression" with
      | (some _, s₁) =>
        match run n (.listP "tuple expression" (.Punctuator .CloseParent)
            (.expression .Lowest false)) s₁ with
        | (some (.many es), s₂) =>
          let s₃ := s₂.advance
          match asExprList es with
          | some elements =>
            (some (.expr (.Tuple ⟨start, s₃.currentToken.span.stop, s₃.fileId⟩
              elements)), s₃)
          | none => (none, s₃)
        | (_, s₂) => (none, s₂)
      | (none, s₁) => (none, s₁)
    | .statementsBlockExpression =>
      let start := s.nextToken.span.start
      match run n .statementsBlock s with
      | (some (.stmts block), s₁) =>
        (some (.expr (.StatementsBlock ⟨start, s₁.currentToken.span.stop, s₁.fileId⟩
          block)), s₁)
      | (_, s₁) => (none, s₁)
    | .functionExpression =>
      let start := s.nextToken.span.start
      let s₀ := s.advance
      match run n (.listP "function expression parameters" (.Punctuator .Or)
          .functionParameter) s₀ with
      | (some (.many ps), s₁) =>
        let s₂ := s₁.advance
        match asParamList ps with
        | some parameters =>
          let returnTypeResult : Option (Option TypeExpr) × ParseState :=
            if s₂.nextToken.raw = .Punctuator .Colon then
              match run n .typeE s₂.advance with
              | (some (.ty t), s₃) => (some (some t), s₃)
              | (_, s₃) => (none, s₃)
            else (some none, s₂)
          match returnTypeResult with
          | (some returnType, s₄) =>
            match run n .statementsBlock s₄ with
            | (some (.stmts block), s₅) =>
              (some (.expr (.Function ⟨start, s₅.currentToken.span.stop, s₅.fileId⟩
                parameters returnType block)), s₅)
            | (_, s₅) => (none, s₅)
          | (none, s₄) => (none, s₄)
        | none => (none, s₂)
      | (_, s₁) => (none, s₁)
    | .statementsBlock =>
      match s.consume (.Punctuator .OpenBrace) "statements block" with
      | (some _, s₀) => run n (.statementsBlockLoop []) s₀
      | (none, s₀) => (none, s₀)
    | .statementsBlockLoop block =>
      match s.nextToken.raw with
      | .Punctuator .CloseBrace =>
        match s.consume (.Punctuator .CloseBrace) "statements block" with
        | (some _, s₁) => (some (.stmts block), s₁)
        | (none, s₁) => (none, s₁)
      | .EndOfFile =>
        (none, s.addDiag (.unexpectedToken (some s.currentToken.span.stop)
          s.nextToken [(Punctuator.CloseBrace).display] "statements block"))
      | .Punctuator .Semicolon => run n (.statementsBlockLoop block) s.advance
      | _ =>
        match run n .statement s with
        | (some (.stmt statement lastExpressionInBlock), s₁) =>
          if lastExpressionInBlock then
            match s₁.consume (.Punctuator .CloseBrace) "statements block" with
            | (some _, s₂) => (some (.stmts (block ++ [statement])), s₂)
            | (none, s₂) => (none, s₂)
          else run n (.statementsBlockLoop (block ++ [statement])) s₁
        | (_, s₁) => (none, s₁)
    | .statement =>
      match s.nextToken.raw with
      | .Keyword .Return => run n .returnStatement s
      | .Keyword .Defer => run n .deferStatement s
      | .Keyword .Let => run n .letStatement s
      | .Keyword .Continue => run n .continueStatement s
      | .Keyword .Break => run n .breakStatement s
      | _ => run n .expressionStatement s
    | .expressionStatement =>
      match run n (.expression .Lowest true) s with
      | (some (.expr expression), s₁) =>
        if expression.with_block then
          (some (.stmt (.Expression expression false) false), s₁)
        else if s₁.nextToken.raw = .Punctuator .Semicolon then
          (some (.stmt (.Expression expression true) false), s₁.advance)
        else
          (some (.stmt (.Expression expression false) true), s₁)
      | (_, s₁) => (none, s₁)
    | .deferStatement =>
      let s₀ := s.advance
      match run n (.expression .Lowest false) s₀ with
      | (some (.expr call), s₁) =>
        match s₁.consume (.Punctuator .Semicolon) "defer statement" with
        | (some _, s₂) => (some (.stmt (.Defer call) false), s₂)
        | (none, s₂) => (none, s₂)
      | (_, s₁) => (none, s₁)
    | .returnStatement =>
      let s₀ := s.advance
      match run n (.expression .Lowest false) s₀ with
      | (some (.expr expression), s₁) =>
        match s₁.consume (.Punctuator .Semicolon) "return statement" with
        | (some _, s₂) => (some (.stmt (.Return expression) false), s₂)
        | (none, s₂) => (none, s₂)
      | (_, s₁) => (none, s₁)
    | .letStatement =>
      let s₀ := s.advance
      match run n .patternE s₀ with
      | (some (.pat pattern), s₁) =>
        let tyResult : Option (Option TypeExpr) × ParseState :=
          if s₁.nextToken.raw = .Punctuator .Colon then
            match run n .typeE s₁.advance with
            | (some (.ty t), s₂) => (some (some t), s₂)
            | (_, s₂) => (none, s₂)
          else (some none, s₁)
        match tyResult with
        | (some ty, s₃) =>
          match s₃.consume (.Punctuator .Eq) "let statement" with
          | (some _, s₄) =>
            match run n (.expression .Lowest false) s₄ with
            | (some (.expr value), s₅) =>
              match s₅.consume (.Punctuator .Semicolon) "let statement" with
              | (some _, s₆) => (some (.stmt (.Let pattern value ty) false), s₆)
              | (none, s₆) => (none, s₆)
            | (_, s₅) => (none, s₅)
          | (none, s₄) => (none, s₄)
        | (none, s₃) => (none, s₃)
      | (_, s₁) => (none, s₁)
    | .continueStatement =>
      let s₀ := s.advance
      let location := s₀.currentToken.span
      match s₀.consume (.Punctuator .Semicolon) "continue statement" with
      | (some _, s₁) => (some (.stmt (.Continue location) false), s₁)
      | (none, s₁) => (none, s₁)
    | .breakStatement =>
      let s₀ := s.advance
      let location := s₀.currentToken.span
      match s₀.consume (.Punctuator .Semicolon) "break statement" with
      | (some _, s₁) => (some (.stmt (.Break location) false), s₁)
      | (none, s₁) => (none, s₁)
    | .literalExpression =>
      match s.nextToken.raw with
      | .IntegerLiteral | .FloatLiteral | .StringLiteral | .CharLiteral
      | .TrueBoolLiteral | .FalseBoolLiteral =>
        let s₀ := s.advance
        (some (.expr (.Literal s₀.currentToken)), s₀)
      | _ =>
        (none, s.addDiag (.unexpectedToken none s.nextToken ["literal"] "literal"))
    | .patternE =>
      match s.nextToken.raw with
      | .Identifier =>
        let symbol := s.nextToken.symbol
        let s₀ := s.advance
        (some (.pat (.Identifier { span := s₀.currentToken.span, symbol })), s₀)
      | .IntegerLiteral | .FloatLiteral | .StringLiteral | .CharLiteral
      | .TrueBoolLiteral | .FalseBoolLiteral =>
        let s₀ := s.advance
        (some (.pat (.Literal s₀.currentToken)), s₀)
      | _ =>
        (none, s.addDiag (.unexpectedToken none s.nextToken
          ["identifier", "literal"] "pattern"))
    | .typeE =>
      match s.consumeIdentifier "type" with
      | (some name, s₁) =>
        if s₁.nextToken.raw = .Punctuator .OpenBracket then
          match run n .genericArguments s₁ with
          | (some (.many ts), s₂) =>
            match asTypeList ts with
            | some arguments => (some (.ty (.Named name arguments)), s₂)
            | none => (none, s₂)
          | (_, s₂) => (none, s₂)
        else (some (.ty (.Named name [])), s₁)
      | (none, s₁) => (none, s₁)
    | .genericArguments =>
      match s.consume (.Punctuator .OpenBracket) "generic arguments" with
      | (some _, s₁) =>
        match run n (.listP "generic arguments" (.Punctuator .CloseBracket)
            .typeE) s₁ with
        | (some (.many ts), s₂) => (some (.many ts), s₂.advance)
        | (_, s₂) => (none, s₂)
      | (none, s₁) => (none, s₁)
    | .functionParameter =>
      match s.consumeIdentifier "function parameter" with
      | (some name, s₁) =>
        match s₁.consume (.Punctuator .Colon) "function parameter" with
        | (some _, s₂) =>
          match run n .typeE s₂ with
          | (some (.ty ty), s₃) => (some (.param ⟨name, ty⟩), s₃)
          | (_, s₃) => (none, s₃)
        | (none, s₂) => (none, s₂)
      | (none, s₁) => (none, s₁)
    | .listP node closing elem =>
      if s.nextToken.raw = closing then (some (.many []), s)
      else if s.nextToken.raw = .EndOfFile then
        (none, s.addDiag (.unexpectedToken (some s.currentToken.span.stop)
          s.nextToken [closing.display] node))
      else
        match run n elem s with
        | (some x, s₁) =>
          if s₁.nextToken.raw = .Punctuator .Comma then
            match run n (.listP node closing elem) s₁.advance with
            | (some (.many xs), s₂) => (some (.many (x :: xs)), s₂)
            | (_, s₂) => (none, s₂)
          else if s₁.nextToken.raw = closing then (some (.many [x]), s₁)
          else
            (none, s₁.addDiag (.unexpectedToken (some s₁.currentToken.span.stop)
              s₁.nextToken [closing.display] node))
        | (none, s₁) => (none, s₁)

/-- A concrete token whose span is the byte `i` of file 0 (token streams in
the concrete theorems place token number `i` at bytes `i..i+1`). -/
def tok (raw : RawToken) (i : Nat) : Token :=
  { raw, span := ⟨i, i + 1, 0⟩, symbol := 0 }

/-- A concrete identifier token with interned symbol `sym` at byte `i`. -/
def identTok (sym i : Nat) : Token :=
  { raw := .Identifier, span := ⟨i, i + 1, 0⟩, symbol := sym }

/-- A concrete punctuator token at byte `i`. -/
def punctTok (p : Punctuator) (i : Nat) : Token := tok (.Punctuator p) i

/-- A concrete keyword token at byte `i`. -/
def kwTok (k : Keyword) (i : Nat) : Token := tok (.Keyword k) i

/-- A concrete integer-literal token at byte `i`. -/
def intTok (i : Nat) : Token := tok .IntegerLiteral i

/-- A freshly primed parse state over a token stream of file 0 with empty
source text and no pre-existing diagnostics. -/
def initState (toks : List Token) : ParseState := ParseState.new 0 [] toks []

/-- The grouping skeleton of an expression: identifier atoms and binary
nodes, everything else erased.  Used to state precedence-grouping facts
independently of spans. -/
inductive EShape where
  | atom (symbol : Nat)
  | bin (p : Punctuator) (l r : EShape)
  | other
deriving DecidableEq, Repr

/-- Erase an expression to its grouping skeleton. -/
def shapeOf : UntypedExpression → EShape
  | .Identifier id => .atom id.symbol
  | .Binary _ l r op =>
    match op.raw with
    | .Punctuator p => .bin p (shapeOf l) (shapeOf r)
    | _ => .other
  | _ => .other

/-- Grouping skeleton of a parse result. -/
def shapeOfResult : Option PR → Option EShape
  | some (.expr e) => some (shapeOf e)
  | _ => none

/-- Token stream for `a OP1 b OP2 c` with identifier symbols 1, 2, 3. -/
def c2Stream (p1 p2 : Punctuator) : List Token :=
  [identTok 1 0, punctTok p1 1, identTok 2 2, punctTok p2 3, identTok 3 4]

/-- The precedence-grouping property for one pair of binary operators:
`a OP1 (b OP2 c)` when OP2 binds strictly tighter than OP1, else
`(a OP1 b) OP2 c`. -/
def c2Holds (p1 p2 : Punctuator) : Bool :=
  let r := shapeOfResult
    (run 20 (.expression .Lowest false) (initState (c2Stream p1 p2))).1
  if Precedence.lt (RawToken.toPrecedence (.Punctuator p1))
      (RawToken.toPrecedence (.Punctuator p2)) then
    decide (r = some (.bin p1 (.atom 1) (.bin p2 (.atom 2) (.atom 3))))
  else
    decide (r = some (.bin p2 (.bin p1 (.atom 1) (.atom 2)) (.atom 3)))

/-- The grouping property holds for every pair of binary operators
(exhaustive kernel computation over the operator table). -/
theorem c2Holds_all :
    (binaryOperatorPunctuators.all fun p1 =>
      binaryOperatorPunctuators.all fun p2 => c2Holds p1 p2) = true := by
  decide

/-- The arguments of a parsed call expression, if the result is one. -/
def callArguments : Option PR → Option (List UntypedExpression)
  | some (.expr (.Call _ _ arguments)) => some arguments
  | _ => none

/-- The diagnostic, if any, that entering token `t` into the lookahead slot
appends (`check_next_token` appends exactly this list). -/
def lexDiagsOf (t : Token) : List Diagnostic :=
  match t.raw with
  | .Error e => [.lexError t.span e]
  | _ => []

theorem nextNoComments_ne_comment (fileId : Nat) (ts : List Token) :
    (nextNoComments fileId ts).1.raw ≠ .Comment := by
  induction ts with
  | nil => simp [nextNoComments]
  | cons t ts ih =>
    by_cases h : t.raw = .Comment <;> simp [nextNoComments, h, ih]

/-- Claim C3: `expect` on a mismatched next token appends exactly one
unexpected-token diagnostic, returns the empty result and does not advance
(so does `consume`); on a matching next token `expect` succeeds without
advancing and without a diagnostic, and `consume` additionally advances
exactly once. -/
theorem c3_expect_consume (s : ParseState) (expected : RawToken) (node : String) :
    (s.nextToken.raw ≠ expected →
      s.expect expected node =
        (none, { s with diagnostics := s.diagnostics ++
          [.unexpectedToken none s.nextToken [expected.display] node] }) ∧
      s.consume expected node =
        (none, { s with diagnostics := s.diagnostics ++
          [.unexpectedToken none s.nextToken [expected.display] node] })) ∧
    (s.nextToken.raw = expected →
      s.expect expected node = (some (), s) ∧
      s.consume expected node = (some (), s.advance)) := by
  constructor
  · intro h
    simp [ParseState.expect, ParseState.consume, ParseState.addDiag, h]
  · intro h
    simp [ParseState.expect, ParseState.consume, h]

theorem c3_expect_consume_witness :
    (initState [punctTok .Comma 0]).consume (.Punctuator .Dot) "test" =
      (none, { initState [punctTok .Comma 0] with
        diagnostics := (initState [punctTok .Comma 0]).diagnostics ++
          [.unexpectedToken none (initState [punctTok .Comma 0]).nextToken
            [(RawToken.Punctuator .Dot).display] "test"] }) ∧
    (initState [punctTok .Comma 0]).consume (.Punctuator .Comma) "test" =
      (some (), (initState [punctTok .Comma 0]).advance) :=
  ⟨((c3_expect_consume (initState [punctTok .Comma 0]) (.Punctuator .Dot) "test").1
      (by decide)).2,
   ((c3_expect_consume (initState [punctTok .Comma 0]) (.Punctuator .Comma) "test").2
      (by decide)).2⟩

/-- Claim C4: whenever a token carrying a lexical-error kind enters the
`next` slot (at construction or after an advance), exactly the one
corresponding `E000` diagnostic is appended at that moment (`lexDiagsOf` is
that one-element list, and is empty for non-error tokens), and the operation
completes normally: the shifting behaviour of `advance` is independent of
whether the token is a lexical error. -/
theorem c4_lex_error_surfacing (s : ParseState) (fileId : Nat)
    (source : List Char) (tokens : List Token) (diagnostics : List Diagnostic) :
    s.advance.diagnostics = s.diagnostics ++ lexDiagsOf s.advance.nextToken ∧
    s.advance.currentToken = s.nextToken ∧
    s.advance.nextToken = (nextNoComments s.fileId s.tokens).1 ∧
    (ParseState.new fileId source tokens diagnostics).diagnostics =
      diagnostics ++
        lexDiagsOf (ParseState.new fileId source tokens diagnostics).nextToken := by
  refine ⟨?_, ?_, ?_, ?_⟩
  · rcases h : nextNoComments s.fileId s.tokens with ⟨t, rest⟩
    cases ht : t.raw <;>
      simp [ParseState.advance, ParseState.checkNextToken, lexDiagsOf, h, ht]
  · rcases h : nextNoComments s.fileId s.tokens with ⟨t, rest⟩
    cases ht : t.raw <;>
      simp [ParseState.advance, ParseState.checkNextToken, h, ht]
  · rcases h : nextNoComments s.fileId s.tokens with ⟨t, rest⟩
    cases ht : t.raw <;>
      simp [ParseState.advance, ParseState.checkNextToken, h, ht]
  · rcases h : nextNoComments fileId tokens with ⟨t, rest⟩
    cases ht : t.raw <;>
      simp [ParseState.new, ParseState.checkNextToken, lexDiagsOf, h, ht]

/-- Claim C10: a freshly constructed parse state holds the same token — the
first non-comment token of the file — in both the `current` and `next`
slots; every `advance` moves the former `next` token into `current` exactly
once and pulls one fresh non-comment token from the lexer into `next`. -/
theorem c10_lookahead_invariant (fileId : Nat) (source : List Char)
    (tokens : List Token) (diagnostics : List Diagnostic) (s : ParseState) :
    (ParseState.new fileId source tokens diagnostics).currentToken =
      (ParseState.new fileId source tokens diagnostics).nextToken ∧
    (ParseState.new fileId source tokens diagnostics).currentToken =
      (nextNoComments fileId tokens).1 ∧
    (nextNoComments fileId tokens).1.raw ≠ .Comment ∧
    s.advance.currentToken = s.nextToken ∧
    s.advance.nextToken = (nextNoComments s.fileId s.tokens).1 ∧
    s.advance.nextToken.raw ≠ .Comment ∧
    s.advance.tokens = (nextNoComments s.fileId s.tokens).2 := by
  refine ⟨?_, ?_, nextNoComments_ne_comment _ _, ?_, ?_, ?_, ?_⟩
  · rcases h : nextNoComments fileId tokens with ⟨t, rest⟩
    cases ht : t.raw <;>
      simp [ParseState.new, ParseState.checkNextToken, h, ht]
  · rcases h : nextNoComments fileId tokens with ⟨t, rest⟩
    cases ht : t.raw <;>
      simp [ParseState.new, ParseState.checkNextToken, h, ht]
  · rcases h : nextNoComments s.fileId s.tokens with ⟨t, rest⟩
    cases ht : t.raw <;>
      simp [ParseState.advance, ParseState.checkNextToken, h, ht]
  · rcases h : nextNoComments s.fileId s.tokens with ⟨t, rest⟩
    cases ht : t.raw <;>
      simp [ParseState.advance, ParseState.checkNextToken, h, ht]
  · rcases h : nextNoComments s.fileId s.tokens with ⟨t, rest⟩
    have := nextNoComments_ne_comment s.fileId s.tokens
    rw [h] at this
    cases ht : t.raw <;>
      simp_all [ParseState.advance, ParseState.checkNextToken, h, ht]
  · rcases h : nextNoComments s.fileId s.tokens with ⟨t, rest⟩
    cases ht : t.raw <;>
      simp [ParseState.advance, ParseState.checkNextToken, h, ht]

/-- Claim C5: a `return <expr>` statement not followed by `;` makes the
enclosing statements-block parse fail with the empty result and exactly one
structural `E001` diagnostic, regardless of what tokens follow the block in
the file. -/
theorem c5_missing_semicolon (rest : List Token) :
    (run 30 .statementsBlock (initState
      ([punctTok .OpenBrace 0, kwTok .Return 1, intTok 2, punctTok .CloseBrace 3]
        ++ rest))).1 = none ∧
    ((run 30 .statementsBlock (initState
      ([punctTok .OpenBrace 0, kwTok .Return 1, intTok 2, punctTok .CloseBrace 3]
        ++ rest))).2.diagnostics.map Diagnostic.code = ["E001"]) :=
  ⟨rfl, rfl⟩

/-- Claim C6: the statements-block loop stops at `}` and consumes it;
end-of-file inside the block appends one unexpected-token diagnostic and
fails the block; a lone `;` is skipped and contributes no statement; a
non-block-ending expression without trailing `;` ends the loop early as the
block's tail value, after which `}` must immediately follow (otherwise the
block fails with one structural diagnostic). -/
theorem c6_statements_block :
    (run 30 .statementsBlock (initState
        [punctTok .OpenBrace 0, punctTok .CloseBrace 1])).1 =
      some (.stmts []) ∧
    (run 30 .statementsBlock (initState
        [punctTok .OpenBrace 0, punctTok .CloseBrace 1])).2.currentToken.raw =
      .Punctuator .CloseBrace ∧
    (run 30 .statementsBlock (initState
        [punctTok .OpenBrace 0, punctTok .CloseBrace 1])).2.diagnostics = [] ∧
    (run 30 .statementsBlock (initState [punctTok .OpenBrace 0])).1 = none ∧
    (run 30 .statementsBlock
        (initState [punctTok .OpenBrace 0])).2.diagnostics.map Diagnostic.code =
      ["E001"] ∧
    (run 30 .statementsBlock (initState
        [punctTok .OpenBrace 0, punctTok .Semicolon 1, punctTok .Semicolon 2,
         punctTok .CloseBrace 3])).1 = some (.stmts []) ∧
    (run 30 .statementsBlock (initState
        [punctTok .OpenBrace 0, identTok 7 1, punctTok .CloseBrace 2])).1 =
      some (.stmts [.Expression (.Identifier ⟨⟨1, 2, 0⟩, 7⟩) false]) ∧
    (run 30 .statementsBlock (initState
        [punctTok .OpenBrace 0, identTok 7 1, intTok 2,
         punctTok .CloseBrace 3])).1 = none ∧
    (run 30 .statementsBlock (initState
        [punctTok .OpenBrace 0, identTok 7 1, intTok 2,
         punctTok .CloseBrace 3])).2.diagnostics.map Diagnostic.code = ["E001"] :=
  ⟨rfl, rfl, rfl, rfl, rfl, rfl, rfl, rfl, rfl⟩

/-- Claim C7: a trailing separator before the closing delimiter of a call
argument list is permitted and does not change the parsed arguments —
`f(a, b,)` and `f(a, b)` both yield the same two-element argument list —
while an empty element between two separators (`f(a,,b)`) fails the list
parse with one structural diagnostic. -/
theorem c7_trailing_separator :
    callArguments (run 30 (.expression .Lowest false) (initState
        [identTok 1 0, punctTok .OpenParent 1, identTok 2 2, punctTok .Comma 3,
         identTok 3 4, punctTok .Comma 5, punctTok .CloseParent 6])).1 =
      some [.Identifier ⟨⟨2, 3, 0⟩, 2⟩, .Identifier ⟨⟨4, 5, 0⟩, 3⟩] ∧
    callArguments (run 30 (.expression .Lowest false) (initState
        [identTok 1 0, punctTok .OpenParent 1, identTok 2 2, punctTok .Comma 3,
         identTok 3 4, punctTok .CloseParent 5])).1 =
      some [.Identifier ⟨⟨2, 3, 0⟩, 2⟩, .Identifier ⟨⟨4, 5, 0⟩, 3⟩] ∧
    (run 30 (.expression .Lowest false) (initState
        [identTok 1 0, punctTok .OpenParent 1, identTok 2 2, punctTok .Comma 3,
         punctTok .Comma 4, identTok 3 5, punctTok .CloseParent 6])).1 = none ∧
    (run 30 (.expression .Lowest false) (initState
        [identTok 1 0, punctTok .OpenParent 1, identTok 2 2, punctTok .Comma 3,
         punctTok .Comma 4, identTok 3 5,
         punctTok .CloseParent 6])).2.diagnostics.map Diagnostic.code =
      ["E001"] :=
  ⟨rfl, rfl, rfl, rfl⟩

/-- Claim C1: when struct-literal suppression is on and the next token is
`(open brace)`, the precedence loop returns the accumulated left-hand side
immediately (first conjunct, for every state, fuel and left-hand side); the
suppression flag is on for the condition of `if` and of every `else if`, for
the condition of `while` and for the scrutinee of `match`, so `if x (brace) y
(brace-close)` parses the braced part as the body block and never as a
struct literal (concrete conjuncts); and the flag is reset to false for a
sub-expression inside parentheses, where a struct literal is parsed
(last conjunct: `if (x (brace) y : 1 (brace-close)) (brace) z (brace-close)`
parses the inner braces as a struct literal applied to `x`). -/
theorem c1_struct_literal_suppression :
    (∀ (n : Nat) (precedence : Precedence) (start : Nat)
        (left : UntypedExpression) (s : ParseState),
        s.nextToken.raw = .Punctuator .OpenBrace →
        Precedence.lt precedence .Struct = true →
        run (n + 1) (.expressionLoop precedence true start left) s =
          (some (.expr left), s)) ∧
    (run 30 (.expression .Lowest false) (initState
        [kwTok .If 0, identTok 10 1, punctTok .OpenBrace 2, identTok 20 3,
         punctTok .CloseBrace 4])).1 =
      some (.expr (.If ⟨0, 5, 0⟩
        [(.Identifier ⟨⟨1, 2, 0⟩, 10⟩,
          [.Expression (.Identifier ⟨⟨3, 4, 0⟩, 20⟩) false])] none)) ∧
    (run 30 (.expression .Lowest false) (initState
        [kwTok .While 0, identTok 10 1, punctTok .OpenBrace 2,
         punctTok .CloseBrace 3])).1 =
      some (.expr (.While ⟨0, 4, 0⟩ (.Identifier ⟨⟨1, 2, 0⟩, 10⟩) [])) ∧
    (run 30 (.expression .Lowest false) (initState
        [kwTok .Match 0, identTok 10 1, punctTok .OpenBrace 2,
         punctTok .CloseBrace 3])).1 =
      some (.expr (.Match ⟨0, 4, 0⟩ (.Identifier ⟨⟨1, 2, 0⟩, 10⟩) [])) ∧
    (run 30 (.expression .Lowest false) (initState
        [kwTok .If 0, identTok 10 1, punctTok .OpenBrace 2, punctTok .CloseBrace 3,
         kwTok .Else 4, kwTok .If 5, identTok 11 6, punctTok .OpenBrace 7,
         punctTok .CloseBrace 8, kwTok .Else 9, punctTok .OpenBrace 10,
         punctTok .CloseBrace 11])).1 =
      some (.expr (.If ⟨0, 12, 0⟩
        [(.Identifier ⟨⟨1, 2, 0⟩, 10⟩, []), (.Identifier ⟨⟨6, 7, 0⟩, 11⟩, [])]
        (some []))) ∧
    (run 30 (.expression .Lowest false) (initState
        [kwTok .If 0, punctTok .OpenParent 1, identTok 30 2, punctTok .OpenBrace 3,
         identTok 31 4, punctTok .Colon 5, intTok 6, punctTok .CloseBrace 7,
         punctTok .CloseParent 8, punctTok .OpenBrace 9, identTok 32 10,
         punctTok .CloseBrace 11])).1 =
      some (.expr (.If ⟨0, 12, 0⟩
        [(.Parenthesized ⟨1, 8, 0⟩ (.Struct ⟨2, 8, 0⟩ (.Identifier ⟨⟨2, 3, 0⟩, 30⟩)
            [⟨⟨⟨4, 5, 0⟩, 31⟩, some (.Literal (intTok 6))⟩]),
          [.Expression (.Identifier ⟨⟨10, 11, 0⟩, 32⟩) false])] none)) := by
  refine ⟨?_, rfl, rfl, rfl, rfl, rfl⟩
  intro n precedence start left s h1 h2
  simp only [run, h1, RawToken.toPrecedence, Punctuator.toPrecedence, h2,
    if_true]

theorem c1_struct_literal_suppression_witness :
    run 1 (.expressionLoop .Lowest true 0 (.Identifier ⟨⟨0, 1, 0⟩, 10⟩))
        (initState [punctTok .OpenBrace 1]) =
      (some (.expr (.Identifier ⟨⟨0, 1, 0⟩, 10⟩)),
       initState [punctTok .OpenBrace 1]) :=
  c1_struct_literal_suppression.1 0 .Lowest 0 (.Identifier ⟨⟨0, 1, 0⟩, 10⟩)
    (initState [punctTok .OpenBrace 1]) (by decide) (by decide)

/-- Claim C2: for every pair of binary operators OP1, OP2 from the
punctuator/keyword-to-precedence table, parsing `a OP1 b OP2 c` groups as
`a OP1 (b OP2 c)` when OP2's precedence strictly exceeds OP1's, and as
`(a OP1 b) OP2 c` when OP1's precedence is greater or equal; concretely,
`1 + 2 * 3` parses as `1 + (2 * 3)` and `1 * 2 + 3` as `(1 * 2) + 3`. -/
theorem c2_precedence_grouping :
    (∀ p1 p2 : Punctuator, p1 ∈ binaryOperatorPunctuators →
      p2 ∈ binaryOperatorPunctuators →
      (Precedence.lt (RawToken.toPrecedence (.Punctuator p1))
          (RawToken.toPrecedence (.Punctuator p2)) = true →
        shapeOfResult
            (run 20 (.expression .Lowest false) (initState (c2Stream p1 p2))).1 =
          some (.bin p1 (.atom 1) (.bin p2 (.atom 2) (.atom 3)))) ∧
      (Precedence.lt (RawToken.toPrecedence (.Punctuator p1))
          (RawToken.toPrecedence (.Punctuator p2)) = false →
        shapeOfResult
            (run 20 (.expression .Lowest false) (initState (c2Stream p1 p2))).1 =
          some (.bin p2 (.bin p1 (.atom 1) (.atom 2)) (.atom 3)))) ∧
    (run 20 (.expression .Lowest false) (initState
        [intTok 0, punctTok .Plus 1, intTok 2, punctTok .Asterisk 3,
         intTok 4])).1 =
      some (.expr (.Binary ⟨0, 5, 0⟩ (.Literal (intTok 0))
        (.Binary ⟨2, 5, 0⟩ (.Literal (intTok 2)) (.Literal (intTok 4))
          ⟨⟨3, 4, 0⟩, .Punctuator .Asterisk⟩)
        ⟨⟨1, 2, 0⟩, .Punctuator .Plus⟩)) ∧
    (run 20 (.expression .Lowest false) (initState
        [intTok 0, punctTok .Asterisk 1, intTok 2, punctTok .Plus 3,
         intTok 4])).1 =
      some (.expr (.Binary ⟨0, 5, 0⟩
        (.Binary ⟨0, 3, 0⟩ (.Literal (intTok 0)) (.Literal (intTok 2))
          ⟨⟨1, 2, 0⟩, .Punctuator .Asterisk⟩)
        (.Literal (intTok 4)) ⟨⟨3, 4, 0⟩, .Punctuator .Plus⟩)) := by
  refine ⟨?_, rfl, rfl⟩
  intro p1 p2 h1 h2
  have h := List.all_eq_true.mp (List.all_eq_true.mp c2Holds_all p1 h1) p2 h2
  unfold c2Holds at h
  constructor
  · intro hlt
    rw [hlt] at h
    simpa using h
  · intro hlt
    rw [hlt] at h
    simpa using h

theorem c2_precedence_grouping_witness :
    shapeOfResult
        (run 20 (.expression .Lowest false)
          (initState (c2Stream .Plus .Asterisk))).1 =
      some (.bin .Plus (.atom 1) (.bin .Asterisk (.atom 2) (.atom 3))) :=
  (c2_precedence_grouping.1 .Plus .Asterisk (by decide) (by decide)).1 (by decide)

/-- Claim C8: consuming a module-level doc-comment block concatenates the
text of consecutive module-level doc-comment tokens in source order (second
conjunct, the loop recurrence), returns `none` when no module-level doc
comment is next (first conjunct), stops at the first token that is not a
module-level doc comment (third conjunct — in particular an item-level doc
comment interrupts the run, and the two levels are never merged: the
item-level consumer likewise returns `none` on a module-level doc comment,
fourth conjunct).  The concrete conjuncts evaluate a two-line module run
(text `ab`) and a module run interrupted by an item-level doc comment
(text `a`). -/
theorem c8_docstring_accumulation :
    (∀ (fuel : Nat) (s : ParseState), s.nextToken.raw ≠ .GlobalDocComment →
      ParseState.consumeModuleDocstring fuel s = (none, s)) ∧
    (∀ (fuel : Nat) (s : ParseState), s.nextToken.raw = .GlobalDocComment →
      ParseState.moduleDocstringLoop (fuel + 1) s =
        (sourceIndex s.advance.source s.advance.currentToken.span ++
          (ParseState.moduleDocstringLoop fuel s.advance).1,
         (ParseState.moduleDocstringLoop fuel s.advance).2)) ∧
    (∀ (fuel : Nat) (s : ParseState), s.nextToken.raw ≠ .GlobalDocComment →
      ParseState.moduleDocstringLoop fuel s = ([], s)) ∧
    (∀ (fuel : Nat) (s : ParseState), s.nextToken.raw ≠ .LocalDocComment →
      ParseState.consumeLocalDocstring fuel s = (none, s)) ∧
    (ParseState.consumeModuleDocstring 10 (ParseState.new 0 ['a', 'b', 'c']
        [tok .GlobalDocComment 0, tok .GlobalDocComment 1, identTok 5 2] [])).1 =
      some ['a', 'b'] ∧
    (ParseState.consumeModuleDocstring 10 (ParseState.new 0 ['a', 'b', 'c']
        [tok .GlobalDocComment 0, tok .LocalDocComment 1, identTok 5 2] [])).1 =
      some ['a'] ∧
    (ParseState.consumeLocalDocstring 10 (ParseState.new 0 ['a', 'b', 'c']
        [tok .GlobalDocComment 0, tok .GlobalDocComment 1, identTok 5 2] [])).1 =
      none := by
  refine ⟨?_, ?_, ?_, ?_, rfl, rfl, rfl⟩
  · intro fuel s h
    simp [ParseState.consumeModuleDocstring, h]
  · intro fuel s h
    simp [ParseState.moduleDocstringLoop, h]
  · intro fuel s h
    cases fuel with
    | zero => rfl
    | succ n => simp [ParseState.moduleDocstringLoop, h]
  · intro fuel s h
    simp [ParseState.consumeLocalDocstring, h]

theorem c8_docstring_accumulation_witness :
    ParseState.consumeModuleDocstring 3
        (initState [identTok 5 0]) = (none, initState [identTok 5 0]) ∧
    ParseState.moduleDocstringLoop 3 (initState [identTok 5 0]) =
      ([], initState [identTok 5 0]) ∧
    ParseState.consumeLocalDocstring 3 (initState [identTok 5 0]) =
      (none, initState [identTok 5 0]) :=
  ⟨c8_docstring_accumulation.1 3 (initState [identTok 5 0]) (by decide),
   c8_docstring_accumulation.2.2.1 3 (initState [identTok 5 0]) (by decide),
   c8_docstring_accumulation.2.2.2.1 3 (initState [identTok 5 0]) (by decide)⟩

/-- The string interner, mirroring `Interner`/`InternerStorage` in
`stellar_interner/src/lib.rs`: all interned strings live concatenated in
`storage`, and `ends` records the end offset of each interned string (the
start offset of symbol `i` is the end of symbol `i - 1`, or `0`).  The
`dedup` hash map of the source is an index over resolved strings; it is
embedded as the first-index lookup `Interner.get`. -/
structure Interner where
  ends : List Nat
  storage : List Char
deriving DecidableEq, Repr

/-- Start offset of a symbol's span (`span_of` computes
`ends[i-1].unwrap_or(0)`; index `-1` wraps in the source and resolves to
nothing, hence `0`). -/
def Interner.startOf (it : Interner) (i : Nat) : Nat :=
  if i = 0 then 0 else (it.ends[i - 1]?).getD 0

/-- Mirrors `InternerStorage::resolve` composed with `span_of`/`str_at`: the
slice of the storage addressed by the symbol's span, if the symbol exists. -/
def Interner.resolve (it : Interner) (symbol : Nat) : Option (List Char) :=
  (it.ends[symbol]?).map fun e =>
    (it.storage.drop (it.startOf symbol)).take (e - it.startOf symbol)

/-- Mirrors `Interner::get`: the symbol already interned for a string, if
any (the source's hash lookup with resolved-string equality, embedded as a
first-index search). -/
def Interner.get (it : Interner) (string : List Char) : Option Nat :=
  (List.range it.ends.length).find? fun i => decide (it.resolve i = some string)

/-- Mirrors `InternerStorage::push`: append the string to the storage,
record its end offset and return the fresh symbol (`next_symbol` is the
number of symbols interned so far). -/
def Interner.push (it : Interner) (string : List Char) : Nat × Interner :=
  let storage := it.storage ++ string
  (it.ends.length, { ends := it.ends ++ [storage.length], storage })

/-- Mirrors `Interner::get_or_intern` (by way of `get_or_intern_using`):
return the existing symbol when the string is already interned, otherwise
intern it. -/
def Interner.getOrIntern (it : Interner) (string : List Char) : Nat × Interner :=
  match it.get string with
  | some i => (i, it)
  | none => it.push string

/-- The representation invariant of reachable interner states: the start
offset of the next symbol is exactly the storage length (spans tile the
storage), and every recorded span lies inside the storage. -/
def Interner.Wf (it : Interner) : Prop :=
  it.startOf it.ends.length = it.storage.length ∧
  ∀ i e, it.ends[i]? = some e → it.startOf i ≤ e ∧ e ≤ it.storage.length

theorem Interner.startOf_push (it : Interner) (string : List Char) (i : Nat)
    (hi : i ≤ it.ends.length) :
    (it.push string).2.startOf i = it.startOf i := by
  unfold Interner.push Interner.startOf
  rcases Nat.eq_zero_or_pos i with h0 | h0
  · simp [h0]
  · have hne : i ≠ 0 := Nat.pos_iff_ne_zero.mp h0
    have hlt : i - 1 < it.ends.length := by omega
    simp [hne, List.getElem?_append, hlt]

theorem Interner.resolve_push_new (it : Interner) (string : List Char)
    (h : it.Wf) :
    (it.push string).2.resolve (it.push string).1 = some string := by
  have hstart : (it.push string).2.startOf it.ends.length = it.storage.length := by
    rw [Interner.startOf_push it string it.ends.length le_rfl]
    exact h.1
  have hget : (it.push string).2.ends[it.ends.length]? =
      some (it.storage.length + string.length) := by
    unfold Interner.push
    simp [List.getElem?_concat_length]
  unfold Interner.resolve
  rw [show (it.push string).1 = it.ends.length from rfl]
  simp only [hget, Option.map_some', hstart]
  have hdrop : ((it.push string).2.storage).drop it.storage.length = string := by
    unfold Interner.push
    simp [List.drop_left]
  rw [hdrop, Nat.add_sub_cancel_left, List.take_length]

theorem Interner.resolve_push_old (it : Interner) (string : List Char) (i : Nat)
    (h : it.Wf) (hi : i < it.ends.length) :
    (it.push string).2.resolve i = it.resolve i := by
  have hstart : (it.push string).2.startOf i = it.startOf i :=
    Interner.startOf_push it string i (Nat.le_of_lt hi)
  have hget : (it.push string).2.ends[i]? = it.ends[i]? := by
    unfold Interner.push
    simp [List.getElem?_append, hi]
  rcases he : it.ends[i]? with _ | e
  · simp [Interner.resolve, hget, he]
  · obtain ⟨hle, hstor⟩ := h.2 i e he
    have hdrop : ((it.push string).2.storage).drop (it.startOf i) =
        it.storage.drop (it.startOf i) ++
          string.drop (it.startOf i - it.storage.length) := by
      unfold Interner.push
      simpa using List.drop_append_eq_append_drop
    have htake : e - it.startOf i - (it.storage.drop (it.startOf i)).length = 0 := by
      simp [List.length_drop]
      omega
    simp [Interner.resolve, hget, he, hstart, hdrop,
      List.take_append_eq_append_take, htake]
    omega

theorem List.find?_of_forall_false {α : Type} (l₁ l₂ : List α) (p : α → Bool)
    (h : ∀ x ∈ l₁, p x = false) : (l₁ ++ l₂).find? p = l₂.find? p := by
  rw [List.find?_append]
  have : l₁.find? p = none := List.find?_eq_none.mpr (by
    intro x hx
    simp [h x hx])
  rw [this]
  rfl

/-- Claim C9: under the representation invariant of reachable interner
states, interning is idempotent — a second `get_or_intern` of the same
string returns the same symbol (and does not change the interner) — and the
round trip `resolve (get_or_intern s)` recovers the original string. -/
theorem c9_interner_idempotent_roundtrip (it : Interner) (string : List Char)
    (h : it.Wf) :
    ((it.getOrIntern string).2.getOrIntern string).1 = (it.getOrIntern string).1 ∧
    ((it.getOrIntern string).2.getOrIntern string).2 = (it.getOrIntern string).2 ∧
    (it.getOrIntern string).2.resolve (it.getOrIntern string).1 = some string := by
  rcases hg : it.get string with _ | i
  · -- not interned yet: a fresh symbol is pushed
    have hforall := List.find?_eq_none.mp hg
    have hlen : (it.push string).2.ends.length = it.ends.length + 1 := by
      unfold Interner.push
      simp
    have hresolve_new : (it.push string).2.resolve (it.push string).1 = some string :=
      Interner.resolve_push_new it string h
    have hget' : (it.push string).2.get string = some it.ends.length := by
      unfold Interner.get
      rw [hlen, List.range_succ]
      rw [List.find?_of_forall_false _ _ _ (by
        intro x hx
        have hxlt : x < it.ends.length := List.mem_range.mp hx
        have hres : (it.push string).2.resolve x = it.resolve x :=
          Interner.resolve_push_old it string x h hxlt
        have hne := hforall x hx
        simp only [decide_eq_true_eq] at hne
        simp [hres]
        intro hcon
        exact hne hcon)]
      simp [List.find?]
      rw [show (it.push string).1 = it.ends.length from rfl] at hresolve_new
      simp [hresolve_new]
    have hfirst : it.getOrIntern string = it.push string := by
      unfold Interner.getOrIntern
      rw [hg]
    have hsecond : (it.push string).2.getOrIntern string =
        (it.ends.length, (it.push string).2) := by
      unfold Interner.getOrIntern
      rw [hget']
    refine ⟨?_, ?_, ?_⟩
    · rw [hfirst, hsecond]
      rfl
    · rw [hfirst, hsecond]
    · rw [hfirst]
      exact hresolve_new
  · -- already interned: nothing changes
    have hp := List.find?_some hg
    simp only [decide_eq_true_eq] at hp
    refine ⟨?_, ?_, ?_⟩ <;> simp [Interner.getOrIntern, hg, hp]

theorem c9_interner_idempotent_roundtrip_witness :
    ((Interner.getOrIntern ⟨[], []⟩ ['a', 'b']).2.getOrIntern ['a', 'b']).1 =
      (Interner.getOrIntern ⟨[], []⟩ ['a', 'b']).1 ∧
    ((Interner.getOrIntern ⟨[], []⟩ ['a', 'b']).2.getOrIntern ['a', 'b']).2 =
      (Interner.getOrIntern ⟨[], []⟩ ['a', 'b']).2 ∧
    (Interner.getOrIntern ⟨[], []⟩ ['a', 'b']).2.resolve
        (Interner.getOrIntern ⟨[], []⟩ ['a', 'b']).1 = some ['a', 'b'] :=
  c9_interner_idempotent_roundtrip ⟨[], []⟩ ['a', 'b']
    ⟨rfl, by intro i e he; simp at he⟩

end Ry
